import Mathlib

/-!
Verification of the schema validator in `scripts/validate_yaml.py`
(class `AgentYAMLValidator`).

The validator receives a parsed YAML document (PyYAML's `safe_load`
result) and accumulates `errors` and `warnings` while running a fixed
sequence of rules, then returns `len(self.errors) == 0`.  We embed the
parsed-document universe as the inductive type `Yaml`, each rule as a
function from `Yaml` to its list of appended messages, and the whole of
`validate` (after the file has been read and parsed) as a function
returning `Except PyExn (Report × Bool)`: Python code that would raise
an uncaught `TypeError` or `AttributeError` on a given document is
modelled as `Except.error`.
-/

/-- A parsed YAML value as handed to the validator by `yaml.safe_load`:
nested mappings (insertion-ordered, unique string keys), sequences and
scalars (string, integer, boolean, null). -/
inductive Yaml where
  | str (s : String)
  | int (n : Int)
  | bool (b : Bool)
  | null
  | list (xs : List Yaml)
  | map (kvs : List (String × Yaml))
deriving Repr, Inhabited

/-- The Python runtime exceptions the validator's rules can raise on
ill-shaped documents (`in` on a non-container raises `TypeError`,
`.get` on a non-dict raises `AttributeError`, iterating a non-iterable
raises `TypeError`). -/
inductive PyExn where
  | typeError
  | attributeError
deriving Repr, DecidableEq

/-- Whether the value is a mapping (a Python `dict`). -/
def Yaml.isMap : Yaml → Bool
  | .map _ => true
  | _ => false

/-- Python truthiness of a parsed YAML value (`if not model: ...`). -/
def truthy : Yaml → Bool
  | .null => false
  | .bool b => b
  | .int n => n != 0
  | .str s => s != ""
  | .list xs => !xs.isEmpty
  | .map kvs => !kvs.isEmpty

/-- Python `v == s` for a string literal `s`: string values compare by
contents, every other value compares unequal to a string. -/
def pyEqStr (v : Yaml) (s : String) : Bool :=
  match v with
  | .str t => t == s
  | _ => false

/-- Whether `p` occurs as a contiguous substring of `s` (Python
`p in s` for two strings). -/
def strContainsSub (p : List Char) : List Char → Bool
  | [] => p.isEmpty
  | a :: rest => p.isPrefixOf (a :: rest) || strContainsSub p rest

/-- Python `key in v`: key membership for a dict, element membership for
a list, substring test for a string, `TypeError` otherwise. -/
def pyContains (key : String) (v : Yaml) : Except PyExn Bool :=
  match v with
  | .map kvs => .ok (kvs.any (fun kv => kv.1 == key))
  | .list xs => .ok (xs.any (fun x => pyEqStr x key))
  | .str s => .ok (strContainsSub key.data s.data)
  | _ => .error .typeError

/-- Python `v.get(key, dflt)` (the one-argument form passes
`dflt = None`): `AttributeError` unless `v` is a dict. -/
def pyGet (v : Yaml) (key : String) (dflt : Yaml) : Except PyExn Yaml :=
  match v with
  | .map kvs => .ok ((kvs.lookup key).getD dflt)
  | _ => .error .attributeError

/-- Python iteration, as used by `for i, tool in enumerate(tools)`:
a list yields its elements, a string its characters, a dict its keys;
anything else raises `TypeError`. -/
def pyIter : Yaml → Except PyExn (List Yaml)
  | .list xs => .ok xs
  | .str s => .ok (s.data.map (fun c => .str (String.singleton c)))
  | .map kvs => .ok (kvs.map (fun kv => .str kv.1))
  | _ => .error .typeError

mutual

/-- Python `repr` of a parsed value, as `str` of a list or dict renders
its elements (escape sequences inside string contents are not modelled;
no message in this development renders a string needing them). -/
def pyRepr : Yaml → String
  | .str s => "'" ++ s ++ "'"
  | .int n => toString n
  | .bool b => if b then "True" else "False"
  | .null => "None"
  | .list xs => "[" ++ pyReprCommaList xs ++ "]"
  | .map kvs => "\x7b" ++ pyReprCommaMap kvs ++ "\x7d"
termination_by structural v => v

/-- Comma-separated `repr`s of a list's elements. -/
def pyReprCommaList : List Yaml → String
  | [] => ""
  | [x] => pyRepr x
  | x :: rest => pyRepr x ++ ", " ++ pyReprCommaList rest
termination_by structural xs => xs

/-- Comma-separated `repr`s of a dict's entries. -/
def pyReprCommaMap : List (String × Yaml) → String
  | [] => ""
  | [(k, v)] => "'" ++ k ++ "': " ++ pyRepr v
  | (k, v) :: rest => "'" ++ k ++ "': " ++ pyRepr v ++ ", " ++ pyReprCommaMap rest
termination_by structural kvs => kvs

end

/-- Python `str(v)` as interpolated by an f-string: strings verbatim,
containers and other scalars by `repr`-style rendering. -/
def pyStr : Yaml → String
  | .str s => s
  | v => pyRepr v

/-- `VALID_KINDS` of `AgentYAMLValidator`. -/
def VALID_KINDS : List String := ["Prompt", "Agent"]

/-- `VALID_CONNECTION_KINDS` of `AgentYAMLValidator`. -/
def VALID_CONNECTION_KINDS : List String := ["remote", "key", "reference", "anonymous"]

/-- `VALID_TOOL_KINDS` of `AgentYAMLValidator`. -/
def VALID_TOOL_KINDS : List String := ["function", "web_search", "file_search", "code_interpreter", "mcp", "openapi", "custom"]

/-- The message `f"Missing required field: '‹field›'"`. -/
def missingFieldMsg (field : String) : String :=
  "Missing required field: '" ++ field ++ "'"

/-- The message of `_validate_kind` for an invalid `kind` value. -/
def invalidKindMsg (v : Yaml) : String :=
  "Invalid 'kind': '" ++ pyStr v ++ "' (must be one of " ++ pyStr (.list (VALID_KINDS.map .str)) ++ ")"

/-- The single warning the validator can emit. -/
def noModelWarning : String := "No 'model' section defined"

/-- The message for a missing `model.id`. -/
def missingModelIdMsg : String := "Missing required field: 'model.id'"

/-- The message for a missing `model.connection.kind`. -/
def missingConnKindMsg : String := "Missing required field: 'model.connection.kind'"

/-- The message for an invalid `model.connection.kind` value. -/
def invalidConnKindMsg (v : Yaml) : String :=
  "Invalid connection kind: '" ++ pyStr v ++ "' (must be one of " ++ pyStr (.list (VALID_CONNECTION_KINDS.map .str)) ++ ")"

/-- The message for a `remote` connection without `endpoint`. -/
def remoteConnMsg : String := "'remote' connection requires 'endpoint'"

/-- The message for a `key` connection with neither `apiKey` nor `key`. -/
def keyConnMsg : String := "'key' connection requires 'apiKey' or 'key'"

/-- The message for a `reference` connection without `name`. -/
def referenceConnMsg : String := "'reference' connection requires 'name'"

/-- The message for an `anonymous` connection without `endpoint`. -/
def anonymousConnMsg : String := "'anonymous' connection requires 'endpoint'"

/-- The prefix `f"Tool #{i+1}: "` put before every tools-rule message
(the loop index `i` counts from 0, messages are 1-indexed). -/
def toolMsg (i : Nat) (body : String) : String :=
  "Tool #" ++ toString (i + 1) ++ ": " ++ body

/-- The body of the tools-rule message for an invalid tool `kind`. -/
def invalidToolKindBody (v : Yaml) : String :=
  "Invalid kind '" ++ pyStr v ++ "' (must be one of " ++ pyStr (.list (VALID_TOOL_KINDS.map .str)) ++ ")"

/-- `_validate_required_fields`: one error per missing top-level field,
in the order `kind`, `name`. -/
def requiredFieldsErrors (d : Yaml) : Except PyExn (List String) := do
  let hasKind ← pyContains "kind" d
  let hasName ← pyContains "name" d
  pure ((if hasKind then [] else [missingFieldMsg "kind"]) ++
        (if hasName then [] else [missingFieldMsg "name"]))

/-- `_validate_kind`: an error only when `kind` is truthy and not in
`VALID_KINDS`. -/
def kindRuleErrors (d : Yaml) : Except PyExn (List String) := do
  let kind ← pyGet d "kind" .null
  pure (if truthy kind && !(VALID_KINDS.any (pyEqStr kind)) then [invalidKindMsg kind] else [])

/-- `_validate_model`: the pair of (errors, warnings) the model rule
appends.  Mirrors the source order: the falsy test, the `model.id`
check, then the connection checks with their `elif` chain. -/
def modelRule (d : Yaml) : Except PyExn (List String × List String) := do
  let model ← pyGet d "model" .null
  if !truthy model then
    pure ([], [noModelWarning])
  else do
    let hasId ← pyContains "id" model
    let idErrs := if hasId then [] else [missingModelIdMsg]
    let connection ← pyGet model "connection" .null
    if !truthy connection then
      pure (idErrs, [])
    else do
      let connKind ← pyGet connection "kind" .null
      let connKindErrs :=
        if !truthy connKind then [missingConnKindMsg]
        else if !(VALID_CONNECTION_KINDS.any (pyEqStr connKind)) then [invalidConnKindMsg connKind]
        else []
      let specific ←
        if pyEqStr connKind "remote" then do
          let b ← pyContains "endpoint" connection
          pure (if b then [] else [remoteConnMsg])
        else if pyEqStr connKind "key" then do
          let hasApiKey ← pyContains "apiKey" connection
          if hasApiKey then pure [] else do
            let hasKey ← pyContains "key" connection
            pure (if hasKey then [] else [keyConnMsg])
        else if pyEqStr connKind "reference" then do
          let b ← pyContains "name" connection
          pure (if b then [] else [referenceConnMsg])
        else if pyEqStr connKind "anonymous" then do
          let b ← pyContains "endpoint" connection
          pure (if b then [] else [anonymousConnMsg])
        else pure []
      pure (idErrs ++ connKindErrs ++ specific, [])

/-- The body of the `for i, tool in enumerate(tools)` loop of
`_validate_tools`: the errors appended for one entry.  A falsy `kind`
takes the `continue` branch, so only the missing-`kind` message is
appended for the entry. -/
def toolEntryErrors (i : Nat) (tool : Yaml) : Except PyExn (List String) := do
  let toolKind ← pyGet tool "kind" .null
  if !truthy toolKind then
    pure [toolMsg i "Missing 'kind' field"]
  else do
    let enumErrs :=
      if !(VALID_TOOL_KINDS.any (pyEqStr toolKind)) then [toolMsg i (invalidToolKindBody toolKind)]
      else []
    let specific ←
      if pyEqStr toolKind "function" then do
        let hasName ← pyContains "name" tool
        let hasDescription ← pyContains "description" tool
        pure ((if hasName then [] else [toolMsg i "'function' tool requires 'name'"]) ++
              (if hasDescription then [] else [toolMsg i "'function' tool requires 'description'"]))
      else if pyEqStr toolKind "mcp" then do
        let hasName ← pyContains "name" tool
        let hasUrl ← pyContains "url" tool
        pure ((if hasName then [] else [toolMsg i "'mcp' tool requires 'name'"]) ++
              (if hasUrl then [] else [toolMsg i "'mcp' tool requires 'url'"]))
      else if pyEqStr toolKind "openapi" then do
        let hasName ← pyContains "name" tool
        let hasSpecification ← pyContains "specification" tool
        pure ((if hasName then [] else [toolMsg i "'openapi' tool requires 'name'"]) ++
              (if hasSpecification then [] else [toolMsg i "'openapi' tool requires 'specification'"]))
      else if pyEqStr toolKind "custom" then do
        let hasName ← pyContains "name" tool
        pure (if hasName then [] else [toolMsg i "'custom' tool requires 'name'"])
      else pure []
    pure (enumErrs ++ specific)

/-- The loop of `_validate_tools` from index `i` on: each entry's errors
in order, stopping at the first uncaught exception. -/
def toolsErrorsFrom (i : Nat) : List Yaml → Except PyExn (List String)
  | [] => pure []
  | t :: rest => do
      let es ← toolEntryErrors i t
      let rests ← toolsErrorsFrom (i + 1) rest
      pure (es ++ rests)

/-- `_validate_tools`: `tools = agent_data.get("tools", [])`, then the
enumerated loop. -/
def toolsRuleErrors (d : Yaml) : Except PyExn (List String) := do
  let tools ← pyGet d "tools" (.list [])
  let items ← pyIter tools
  toolsErrorsFrom 0 items

/-- Python `s.startswith(p)`. -/
def pyStartsWith (s p : String) : Bool := p.data.isPrefixOf s.data

mutual

/-- The recursive `find_expressions` of `_check_powerfx_expressions`:
depth-first over mappings (insertion order) and sequences (index order),
recording every string scalar that starts with `=` at its dotted or
bracketed path. -/
def findExpressions (v : Yaml) (path : String) : List (String × String) :=
  match v with
  | .map kvs => findExprMap kvs path
  | .list xs => findExprList xs path 0
  | .str s => if pyStartsWith s "=" then [(path, s)] else []
  | _ => []
termination_by structural v

/-- `find_expressions` over a mapping's entries: the child path is
`k` at the root and `path ++ "." ++ k` below it. -/
def findExprMap (kvs : List (String × Yaml)) (path : String) : List (String × String) :=
  match kvs with
  | [] => []
  | (k, v) :: rest =>
      findExpressions v (if path = "" then k else path ++ "." ++ k) ++ findExprMap rest path
termination_by structural kvs

/-- `find_expressions` over a sequence's elements: the child path
appends `[i]`. -/
def findExprList (xs : List Yaml) (path : String) (i : Nat) : List (String × String) :=
  match xs with
  | [] => []
  | x :: rest =>
      findExpressions x (path ++ "[" ++ toString i ++ "]") ++ findExprList rest path (i + 1)
termination_by structural xs

end

/-- The expression scan started on the whole document with the empty
path. -/
def powerfxExpressions (d : Yaml) : List (String × String) :=
  findExpressions d ""

/-- Python `s.split(sep)` for a non-empty separator, over character
lists.  The extra `fuel` argument only makes the recursion structural;
every call below passes `fuel = s.length`, which the splitting (each
step consumes at least one character) never exhausts. -/
def pySplitGo (sep : List Char) (fuel : Nat) (s : List Char) : List (List Char) :=
  match fuel, s with
  | _, [] => [[]]
  | 0, s => [s]
  | f + 1, a :: rest =>
    if sep.isPrefixOf (a :: rest) then
      [] :: pySplitGo sep f ((a :: rest).drop sep.length)
    else
      match pySplitGo sep f rest with
      | [] => [[a]]
      | seg :: segs => (a :: seg) :: segs

/-- Python `s.split(sep)`: left-to-right, non-overlapping occurrences
(the empty separator, which Python refuses, returns `[s]` here and is
never used). -/
def pySplit (sep s : String) : List String :=
  match sep.data with
  | [] => [s]
  | c :: cs => (pySplitGo (c :: cs) s.data.length s.data).map (fun l => String.mk l)

/-- The environment-variable extraction of `_check_powerfx_expressions`:
`expr.split("=Env.")[1].split(")")[0].split(",")[0]`.  The caller
guards it with `expr.startswith("=Env.")`, so index 1 exists; `getD`
and `headD` stand for Python's indexing. -/
def extractEnvVar (expr : String) : String :=
  (pySplit "," ((pySplit ")" ((pySplit "=Env." expr).getD 1 "")).headD "")).headD ""

/-- The env-var hints printed by the scan: one extracted name per
recorded expression that starts with `=Env.`. -/
def envVarHints (d : Yaml) : List String :=
  (powerfxExpressions d).filterMap
    (fun pe => if pyStartsWith pe.2 "=Env." then some (extractEnvVar pe.2) else none)

/-- The validation report: the accumulated error and warning messages in
append order, and the expressions recorded (printed) by the scan. -/
structure Report where
  errors : List String
  warnings : List String
  expressions : List (String × String)
deriving Repr, DecidableEq

/-- `AgentYAMLValidator.validate` from the point where `yaml.safe_load`
has produced the document `d` (file lookup and YAML-syntax failures are
earlier, out-of-core returns): the four rules run in source order, the
expression scan records its findings, and the returned boolean is
`len(self.errors) == 0`.  An uncaught Python exception inside a rule is
the `Except.error` case; later rules then never run. -/
def validate (d : Yaml) : Except PyExn (Report × Bool) := do
  let e1 ← requiredFieldsErrors d
  let e2 ← kindRuleErrors d
  let (e3, w) ← modelRule d
  let e4 ← toolsRuleErrors d
  let errors := e1 ++ e2 ++ e3 ++ e4
  pure ({ errors := errors, warnings := w, expressions := powerfxExpressions d }, errors.length == 0)

/-- Modelled from the spec's words, for comparison with the code's
`extractEnvVar` (the code itself is in the repository): the referenced
variable name of an expression that starts with `=Env.` is "the
substring after `=Env.` up to the first `)` or `,` character, whichever
comes first", the whole remainder when neither occurs. -/
def specEnvVarName (expr : String) : String :=
  String.mk ((expr.data.drop 5).takeWhile (fun c => !(c == ')') && !(c == ',')))

/-- The minimal valid document of the spec: `{kind: Agent, name: "x"}`. -/
def minimalDoc : Yaml := .map [("kind", .str "Agent"), ("name", .str "x")]

lemma ok_bind {α β : Type} (a : α) (f : α → Except PyExn β) :
    (Except.ok a >>= f) = f a := rfl

lemma error_bind {α β : Type} (e : PyExn) (f : α → Except PyExn β) :
    ((Except.error e : Except PyExn α) >>= f) = Except.error e := rfl

lemma validate_parts {d : Yaml} {r : Report} {b : Bool} (h : validate d = .ok (r, b)) :
    ∃ e1 e2 e3 w e4,
      requiredFieldsErrors d = .ok e1 ∧ kindRuleErrors d = .ok e2 ∧
      modelRule d = .ok (e3, w) ∧ toolsRuleErrors d = .ok e4 ∧
      r.errors = e1 ++ e2 ++ e3 ++ e4 ∧ r.warnings = w ∧
      r.expressions = powerfxExpressions d ∧
      b = ((e1 ++ e2 ++ e3 ++ e4).length == 0) := by
  unfold validate at h
  cases h1 : requiredFieldsErrors d with
  | error e => rw [h1, error_bind] at h; exact absurd h (by simp)
  | ok e1 =>
    rw [h1, ok_bind] at h
    cases h2 : kindRuleErrors d with
    | error e => rw [h2, error_bind] at h; exact absurd h (by simp)
    | ok e2 =>
      rw [h2, ok_bind] at h
      cases h3 : modelRule d with
      | error e => rw [h3, error_bind] at h; exact absurd h (by simp)
      | ok p3 =>
        obtain ⟨e3, w⟩ := p3
        rw [h3, ok_bind] at h
        dsimp only at h
        cases h4 : toolsRuleErrors d with
        | error e => rw [h4, error_bind] at h; exact absurd h (by simp)
        | ok e4 =>
          rw [h4, ok_bind] at h
          simp only [pure, Except.pure, Except.ok.injEq, Prod.mk.injEq] at h
          obtain ⟨hr, hb⟩ := h
          exact ⟨e1, e2, e3, w, e4, rfl, rfl, rfl, rfl, by rw [← hr], by rw [← hr], by rw [← hr], hb.symm⟩

lemma missingFieldMsg_head (f : String) : (missingFieldMsg f).data.head? = some 'M' := by
  unfold missingFieldMsg
  rw [String.data_append, String.data_append]
  rfl

lemma toolMsg_head (i : Nat) (s : String) : (toolMsg i s).data.head? = some 'T' := by
  unfold toolMsg
  rw [String.data_append, String.data_append, String.data_append]
  rfl

lemma invalidKindMsg_head (v : Yaml) : (invalidKindMsg v).data.head? = some 'I' := by
  unfold invalidKindMsg
  rw [String.data_append, String.data_append, String.data_append, String.data_append]
  rfl

lemma missingFieldMsg_ne_keyConn (f : String) : missingFieldMsg f ≠ keyConnMsg := by
  intro h
  have h1 := missingFieldMsg_head f
  rw [h] at h1
  exact absurd h1 (by decide)

lemma toolMsg_ne_keyConn (i : Nat) (s : String) : toolMsg i s ≠ keyConnMsg := by
  intro h
  have h1 := toolMsg_head i s
  rw [h] at h1
  exact absurd h1 (by decide)

lemma invalidKindMsg_ne_keyConn (v : Yaml) : invalidKindMsg v ≠ keyConnMsg := by
  intro h
  have h1 := invalidKindMsg_head v
  rw [h] at h1
  exact absurd h1 (by decide)

lemma mem_if_lists {b : Bool} {xs ys : List String} {m : String}
    (hm : m ∈ (if b then xs else ys)) : m ∈ xs ∨ m ∈ ys := by
  cases b <;> simp_all

lemma requiredFields_map (kvs : List (String × Yaml)) :
    requiredFieldsErrors (.map kvs) =
      .ok ((if kvs.any (fun kv => kv.1 == "kind") then [] else [missingFieldMsg "kind"]) ++
           (if kvs.any (fun kv => kv.1 == "name") then [] else [missingFieldMsg "name"])) := rfl

lemma kindRule_map (kvs : List (String × Yaml)) :
    kindRuleErrors (.map kvs) =
      .ok (if truthy ((kvs.lookup "kind").getD .null) &&
             !(VALID_KINDS.any (pyEqStr ((kvs.lookup "kind").getD .null)))
           then [invalidKindMsg ((kvs.lookup "kind").getD .null)] else []) := rfl

lemma requiredFields_ok {d : Yaml} {e : List String} (h : requiredFieldsErrors d = .ok e) :
    ∀ m ∈ e, m = missingFieldMsg "kind" ∨ m = missingFieldMsg "name" := by
  unfold requiredFieldsErrors at h
  cases h1 : pyContains "kind" d with
  | error ex => rw [h1, error_bind] at h; exact absurd h (by simp)
  | ok hasKind =>
    rw [h1, ok_bind] at h
    cases h2 : pyContains "name" d with
    | error ex => rw [h2, error_bind] at h; exact absurd h (by simp)
    | ok hasName =>
      rw [h2, ok_bind] at h
      simp only [pure, Except.pure, Except.ok.injEq] at h
      subst h
      intro m hm
      rcases List.mem_append.mp hm with h3 | h3 <;> cases hasKind <;> cases hasName <;> simp_all

lemma kindRule_ok {d : Yaml} {e : List String} (h : kindRuleErrors d = .ok e) :
    e = [] ∨ ∃ v, e = [invalidKindMsg v] := by
  unfold kindRuleErrors at h
  cases h1 : pyGet d "kind" .null with
  | error ex => rw [h1, error_bind] at h; exact absurd h (by simp)
  | ok v =>
    rw [h1, ok_bind] at h
    simp only [pure, Except.pure, Except.ok.injEq] at h
    subst h
    split
    · exact Or.inr ⟨v, rfl⟩
    · exact Or.inl rfl

lemma pure_bind_ex {α β : Type} (a : α) (f : α → Except PyExn β) :
    ((pure a : Except PyExn α) >>= f) = f a := rfl

lemma toolEntry_ok {i : Nat} {t : Yaml} {e : List String}
    (h : toolEntryErrors i t = .ok e) : ∀ m ∈ e, ∃ s, m = toolMsg i s := by
  cases t with
  | str s => simp [toolEntryErrors, pyGet, error_bind] at h
  | int n => simp [toolEntryErrors, pyGet, error_bind] at h
  | bool b => simp [toolEntryErrors, pyGet, error_bind] at h
  | null => simp [toolEntryErrors, pyGet, error_bind] at h
  | list xs => simp [toolEntryErrors, pyGet, error_bind] at h
  | map tkvs =>
    unfold toolEntryErrors at h
    rw [show pyGet (.map tkvs) "kind" .null = .ok ((tkvs.lookup "kind").getD .null) from rfl,
        ok_bind] at h
    set tk := (tkvs.lookup "kind").getD .null with htk
    by_cases ht : truthy tk
    · rw [if_neg (by simp [ht])] at h
      have hc : ∀ key, pyContains key (.map tkvs) = .ok (tkvs.any (fun kv => kv.1 == key)) :=
        fun key => rfl
      simp only [hc, ok_bind, pure_bind_ex] at h
      repeat' split at h
      all_goals
        simp only [pure, Except.pure, Except.ok.injEq] at h
        subst h
        intro m hm
        simp only [List.append_nil, List.nil_append, List.mem_append, List.mem_singleton,
          List.not_mem_nil, false_or, or_false] at hm
        repeat' first | exact ⟨_, hm⟩ | rcases hm with hm | hm
    · rw [if_pos (by simp [ht])] at h
      simp only [pure, Except.pure, Except.ok.injEq] at h
      subst h
      intro m hm
      simp at hm
      exact ⟨_, hm⟩

lemma toolsFrom_ok {ts : List Yaml} : ∀ {i : Nat} {e : List String},
    toolsErrorsFrom i ts = .ok e → ∀ m ∈ e, ∃ j s, m = toolMsg j s := by
  induction ts with
  | nil =>
    intro i e h m hm
    simp only [toolsErrorsFrom, pure, Except.pure, Except.ok.injEq] at h
    subst h
    simp at hm
  | cons t rest ih =>
    intro i e h m hm
    unfold toolsErrorsFrom at h
    cases h1 : toolEntryErrors i t with
    | error ex => rw [h1, error_bind] at h; exact absurd h (by simp)
    | ok es =>
      rw [h1, ok_bind] at h
      cases h2 : toolsErrorsFrom (i + 1) rest with
      | error ex => rw [h2, error_bind] at h; exact absurd h (by simp)
      | ok rests =>
        rw [h2, ok_bind] at h
        simp only [pure, Except.pure, Except.ok.injEq] at h
        subst h
        rcases List.mem_append.mp hm with h3 | h3
        · exact ⟨i, toolEntry_ok h1 m h3⟩
        · exact ih h2 m h3

lemma toolsRule_ok {d : Yaml} {e : List String} (h : toolsRuleErrors d = .ok e) :
    ∀ m ∈ e, ∃ j s, m = toolMsg j s := by
  unfold toolsRuleErrors at h
  cases h1 : pyGet d "tools" (.list []) with
  | error ex => rw [h1, error_bind] at h; exact absurd h (by simp)
  | ok tools =>
    rw [h1, ok_bind] at h
    cases h2 : pyIter tools with
    | error ex => rw [h2, error_bind] at h; exact absurd h (by simp)
    | ok items =>
      rw [h2, ok_bind] at h
      exact toolsFrom_ok h

lemma requiredFields_count_keyConn {d : Yaml} {e : List String}
    (h : requiredFieldsErrors d = .ok e) : e.count keyConnMsg = 0 := by
  rw [List.count_eq_zero]
  intro hmem
  rcases requiredFields_ok h _ hmem with h1 | h1 <;>
    exact missingFieldMsg_ne_keyConn _ h1.symm

lemma kindRule_count_keyConn {d : Yaml} {e : List String}
    (h : kindRuleErrors d = .ok e) : e.count keyConnMsg = 0 := by
  rw [List.count_eq_zero]
  intro hmem
  rcases kindRule_ok h with h1 | ⟨v, h1⟩ <;> subst h1
  · simp at hmem
  · simp at hmem
    exact invalidKindMsg_ne_keyConn v hmem.symm

lemma toolsRule_count_keyConn {d : Yaml} {e : List String}
    (h : toolsRuleErrors d = .ok e) : e.count keyConnMsg = 0 := by
  rw [List.count_eq_zero]
  intro hmem
  rcases toolsRule_ok h _ hmem with ⟨j, s, h1⟩
  exact toolMsg_ne_keyConn j s h1.symm

lemma modelRule_key_conn {kvs mkvs ckvs : List (String × Yaml)}
    (hm : kvs.lookup "model" = some (.map mkvs))
    (hc : mkvs.lookup "connection" = some (.map ckvs))
    (hk : ckvs.lookup "kind" = some (.str "key")) :
    modelRule (.map kvs) =
      .ok ((if mkvs.any (fun kv => kv.1 == "id") then [] else [missingModelIdMsg]) ++
           (if ckvs.any (fun kv => kv.1 == "apiKey") then []
            else if ckvs.any (fun kv => kv.1 == "key") then [] else [keyConnMsg]), []) := by
  have hmne : mkvs.isEmpty = false := by
    cases mkvs with
    | nil => simp [List.lookup] at hc
    | cons a l => rfl
  have hcne : ckvs.isEmpty = false := by
    cases ckvs with
    | nil => simp [List.lookup] at hk
    | cons a l => rfl
  unfold modelRule
  rw [show pyGet (.map kvs) "model" .null = .ok (.map mkvs) by simp [pyGet, hm], ok_bind]
  rw [if_neg (by simp [truthy, hmne])]
  rw [show pyContains "id" (.map mkvs) = .ok (mkvs.any (fun kv => kv.1 == "id")) from rfl, ok_bind]
  rw [show pyGet (.map mkvs) "connection" .null = .ok (.map ckvs) by simp [pyGet, hc], ok_bind]
  rw [if_neg (by simp [truthy, hcne])]
  rw [show pyGet (.map ckvs) "kind" .null = .ok (.str "key") by simp [pyGet, hk], ok_bind]
  by_cases hA : ckvs.any (fun kv => kv.1 == "apiKey") <;>
    by_cases hK : ckvs.any (fun kv => kv.1 == "key") <;>
      simp [hA, hK, pyEqStr, truthy, VALID_CONNECTION_KINDS, pyContains, ok_bind, pure_bind_ex,
        pure, Except.pure]


lemma modelRule_truthy_model_id {kvs mkvs : List (String × Yaml)}
    (hm : kvs.lookup "model" = some (.map mkvs))
    (hne : mkvs.isEmpty = false)
    (hid : mkvs.any (fun kv => kv.1 == "id") = false) :
    ∀ {e3 w : List String}, modelRule (.map kvs) = .ok (e3, w) → missingModelIdMsg ∈ e3 := by
  intro e3 w h
  unfold modelRule at h
  rw [show pyGet (.map kvs) "model" .null = .ok (.map mkvs) by simp [pyGet, hm], ok_bind,
      if_neg (by simp [truthy, hne]),
      show pyContains "id" (.map mkvs) = .ok (mkvs.any (fun kv => kv.1 == "id")) from rfl,
      ok_bind, hid,
      show pyGet (.map mkvs) "connection" .null =
        .ok ((mkvs.lookup "connection").getD .null) from rfl, ok_bind] at h
  generalize (mkvs.lookup "connection").getD Yaml.null = conn at h
  by_cases hct : truthy conn
  · rw [if_neg (by simp [hct])] at h
    cases conn with
    | map cckvs =>
      rw [show pyGet (.map cckvs) "kind" .null = .ok ((cckvs.lookup "kind").getD .null) from rfl,
          ok_bind] at h
      have hc : ∀ key, pyContains key (.map cckvs) = .ok (cckvs.any (fun kv => kv.1 == key)) :=
        fun key => rfl
      simp only [hc, ok_bind, pure_bind_ex] at h
      repeat' split at h
      all_goals
        simp only [pure, Except.pure, Except.ok.injEq, Prod.mk.injEq] at h
        obtain ⟨he, -⟩ := h
        subst he
        first
        | exact absurd ‹false = true› (by simp)
        | simp
    | str s => rw [show pyGet (.str s) "kind" .null = .error .attributeError from rfl, error_bind] at h; exact absurd h (by simp)
    | int n => rw [show pyGet (.int n) "kind" .null = .error .attributeError from rfl, error_bind] at h; exact absurd h (by simp)
    | bool bb => rw [show pyGet (.bool bb) "kind" .null = .error .attributeError from rfl, error_bind] at h; exact absurd h (by simp)
    | null => rw [show pyGet .null "kind" .null = .error .attributeError from rfl, error_bind] at h; exact absurd h (by simp)
    | list xs => rw [show pyGet (.list xs) "kind" .null = .error .attributeError from rfl, error_bind] at h; exact absurd h (by simp)
  · rw [if_pos (by simp [hct])] at h
    simp only [pure, Except.pure, Except.ok.injEq, Prod.mk.injEq] at h
    obtain ⟨he, -⟩ := h
    subst he
    simp

lemma pySplitGo_ne_nil (sep : List Char) (fuel : Nat) (s : List Char) :
    pySplitGo sep fuel s ≠ [] := by
  cases fuel with
  | zero => cases s <;> simp [pySplitGo]
  | succ f =>
    cases s with
    | nil => simp [pySplitGo]
    | cons a rest =>
      simp only [pySplitGo]
      split
      · simp
      · split <;> simp

lemma isPrefixOf_append_self (p l : List Char) : p.isPrefixOf (p ++ l) = true := by
  induction p with
  | nil => simp [List.isPrefixOf]
  | cons c cs ih => simp [List.isPrefixOf, ih]

lemma pySplitGo_single_head (c : Char) : ∀ (fuel : Nat) (s : List Char), s.length ≤ fuel →
    (pySplitGo [c] fuel s).headD [] = s.takeWhile (fun a => !(a == c)) := by
  intro fuel
  induction fuel with
  | zero =>
    intro s hs
    cases s with
    | nil => rfl
    | cons a rest => simp at hs
  | succ f ih =>
    intro s hs
    cases s with
    | nil => rfl
    | cons a rest =>
      simp only [pySplitGo]
      by_cases hac : c = a
      · subst hac
        rw [if_pos (by simp [List.isPrefixOf])]
        simp [List.takeWhile]
      · rw [if_neg (by simp [List.isPrefixOf]; exact hac)]
        cases hsp : pySplitGo [c] f rest with
        | nil => exact absurd hsp (pySplitGo_ne_nil [c] f rest)
        | cons seg segs =>
          have hseg : seg = rest.takeWhile (fun a => !(a == c)) := by
            have := ih rest (by simp at hs; omega)
            rw [hsp] at this
            exact this
          simp only [List.headD]
          rw [hseg]
          have hne : (a == c) = false := by
            simp
            exact fun hcon => hac hcon.symm
          simp [List.takeWhile, hne]

lemma pySplitGo_eq_singleton {sep : List Char} :
    ∀ {fuel : Nat} {s x : List Char}, s.length ≤ fuel →
      pySplitGo sep fuel s = [x] → x = s := by
  intro fuel
  induction fuel with
  | zero =>
    intro s x hs h
    cases s with
    | nil =>
      simp [pySplitGo] at h
      exact h
    | cons a rest => simp at hs
  | succ f ih =>
    intro s x hs h
    cases s with
    | nil =>
      simp [pySplitGo] at h
      exact h
    | cons a rest =>
      simp only [pySplitGo] at h
      split at h
      · simp only [List.cons.injEq] at h
        exact absurd h.2 (pySplitGo_ne_nil sep f _)
      · split at h
        · next heq => exact absurd heq (pySplitGo_ne_nil sep f rest)
        · next seg segs heq =>
          simp only [List.cons.injEq] at h
          obtain ⟨hx, hsegs⟩ := h
          subst hsegs
          have : seg = rest := ih (by simp at hs; omega) heq
          rw [hx.symm, this]

lemma pySplitGo_fuel_irrel {sep : List Char} (hsep : sep ≠ []) :
    ∀ (f1 f2 : Nat) (s : List Char), s.length ≤ f1 → s.length ≤ f2 →
      pySplitGo sep f1 s = pySplitGo sep f2 s := by
  intro f1
  induction f1 with
  | zero =>
    intro f2 s h1 h2
    cases s with
    | nil => cases f2 <;> rfl
    | cons a rest => simp at h1
  | succ g1 ih =>
    intro f2 s h1 h2
    cases s with
    | nil => cases f2 <;> rfl
    | cons a rest =>
      cases f2 with
      | zero => simp at h2
      | succ g2 =>
        have hslen : sep.length ≥ 1 := by
          cases sep with
          | nil => exact absurd rfl hsep
          | cons c cs => simp
        simp only [pySplitGo]
        split
        · rw [ih g2 ((a :: rest).drop sep.length)
            (by simp [List.length_drop] at h1 ⊢; omega)
            (by simp [List.length_drop] at h2 ⊢; omega)]
        · rw [ih g2 rest (by simp at h1; omega) (by simp at h2; omega)]

lemma pySplitGo_prefix_step (c : Char) (cs rest : List Char) (f : Nat) :
    pySplitGo (c :: cs) (f + 1) ((c :: cs) ++ rest) = [] :: pySplitGo (c :: cs) f rest := by
  have h1 : (c :: cs) ++ rest = c :: (cs ++ rest) := rfl
  rw [h1]
  simp only [pySplitGo]
  rw [if_pos (by rw [← h1]; exact isPrefixOf_append_self (c :: cs) rest)]
  congr 1
  rw [← h1]
  rw [show (c :: cs) ++ rest = (c :: cs) ++ rest from rfl]
  exact congrArg _ (List.drop_left (c :: cs) rest)

lemma pySplit_single_head (c : Char) (l : List Char) :
    (pySplit (String.singleton c) (String.mk l)).headD "" =
      String.mk (l.takeWhile (fun a => !(a == c))) := by
  have hh : pySplit (String.singleton c) (String.mk l) =
      (pySplitGo [c] l.length l).map String.mk := rfl
  rw [hh]
  cases hsp : pySplitGo [c] l.length l with
  | nil => exact absurd hsp (pySplitGo_ne_nil _ _ _)
  | cons seg segs =>
    have hthis := pySplitGo_single_head c l.length l (le_refl _)
    rw [hsp] at hthis
    simp only [List.headD] at hthis
    simp only [List.map_cons, List.headD]
    exact congrArg String.mk hthis

lemma takeWhile_takeWhile_bool (p q : Char → Bool) (l : List Char) :
    (l.takeWhile q).takeWhile p = l.takeWhile (fun a => q a && p a) := by
  induction l with
  | nil => rfl
  | cons a t ih => by_cases hq : q a <;> simp [List.takeWhile_cons, hq, ih]

/-- C1: for every document on which `validate` returns, the boolean
result is true iff the accumulated errors are empty (so warnings and
expressions never affect it). -/
theorem validate_isValid_iff_errors_empty (d : Yaml) (r : Report) (b : Bool)
    (h : validate d = .ok (r, b)) : b = true ↔ r.errors = [] := by
  obtain ⟨e1, e2, e3, w, e4, _, _, _, _, hr, _, _, hb⟩ := validate_parts h
  rw [hb, hr]
  simp [List.length_eq_zero]

/-- Witness for C1 at the minimal valid document. -/
theorem validate_isValid_iff_errors_empty_witness :
    (true = true ↔
      ({ errors := [], warnings := [noModelWarning], expressions := [] } : Report).errors = []) :=
  validate_isValid_iff_errors_empty minimalDoc
    { errors := [], warnings := [noModelWarning], expressions := [] } true rfl

/-- C9: the minimal document validates with no errors, exactly the
no-model warning, no expressions, and result true. -/
theorem minimal_doc_validates :
    validate minimalDoc =
      .ok ({ errors := [], warnings := [noModelWarning], expressions := [] }, true) := rfl

/-- C2 counterexample: on the parsed empty document (root `None`, not a
mapping) `validate` raises `TypeError` instead of reporting a single
fatal error with a false result. -/
theorem nonmapping_root_counterexample :
    validate Yaml.null = Except.error PyExn.typeError := rfl

/-- C2 (amended): on every input whose parsed root is not a mapping,
`validate` raises an uncaught exception (no report, no boolean result);
only the earlier source-syntax failure is reported as a single fatal
error. -/
theorem nonmapping_root_raises (d : Yaml) (h : d.isMap = false) :
    (validate d).isOk = false := by
  cases d <;> first | rfl | simp [Yaml.isMap] at h

/-- Witness for C2 (amended) at the null root. -/
theorem nonmapping_root_raises_witness :
    Yaml.isMap Yaml.null = false ∧ (validate Yaml.null).isOk = false :=
  ⟨rfl, nonmapping_root_raises Yaml.null rfl⟩

/-- C3: a root mapping missing `kind` or `name` validates false with an
error naming that field. -/
theorem missing_required_field_invalid (kvs : List (String × Yaml)) (field : String)
    (hf : field = "kind" ∨ field = "name")
    (habs : kvs.any (fun kv => kv.1 == field) = false)
    (r : Report) (b : Bool) (h : validate (.map kvs) = .ok (r, b)) :
    b = false ∧ missingFieldMsg field ∈ r.errors := by
  obtain ⟨e1, e2, e3, w, e4, h1, h2, h3, h4, hr, hw, hx, hb⟩ := validate_parts h
  rw [requiredFields_map] at h1
  simp only [Except.ok.injEq] at h1
  have hmem : missingFieldMsg field ∈ e1 := by
    subst h1
    rcases hf with hf | hf <;> subst hf <;> rw [habs] <;> simp
  have hmem4 : missingFieldMsg field ∈ e1 ++ e2 ++ e3 ++ e4 := by
    simp [List.mem_append, hmem]
  refine ⟨?_, by rw [hr]; exact hmem4⟩
  rw [hb]
  have hne : (e1 ++ e2 ++ e3 ++ e4) ≠ [] := List.ne_nil_of_mem hmem4
  simpa [List.length_eq_zero] using hne

/-- Witness for C3: a document with only `name`. -/
theorem missing_required_field_invalid_witness :
    false = false ∧ missingFieldMsg "kind" ∈
      ({ errors := [missingFieldMsg "kind"], warnings := [noModelWarning],
         expressions := [] } : Report).errors :=
  missing_required_field_invalid [("name", .str "x")] "kind" (Or.inl rfl) rfl
    { errors := [missingFieldMsg "kind"], warnings := [noModelWarning], expressions := [] }
    false rfl

/-- C4 counterexample: `kind` present with the empty-string value — a
value outside the allowed set — yet no error at all is produced (the
falsy guard skips the check) and the document validates true. -/
theorem falsy_kind_counterexample :
    VALID_KINDS.any (pyEqStr (Yaml.str "")) = false ∧
    validate (.map [("kind", .str ""), ("name", .str "x")]) =
      .ok ({ errors := [], warnings := [noModelWarning], expressions := [] }, true) :=
  ⟨rfl, rfl⟩

/-- C4 (amended): with `kind` present and truthy, a value outside
`VALID_KINDS` yields exactly the invalid-kind error (naming value and
set) and it reaches the final error list; a value in the set, or a
falsy value, yields no kind-rule error. -/
theorem kind_enum_errors (kvs : List (String × Yaml)) (v : Yaml)
    (hv : kvs.lookup "kind" = some v) :
    (truthy v = true → VALID_KINDS.any (pyEqStr v) = false →
       kindRuleErrors (.map kvs) = .ok [invalidKindMsg v] ∧
       ∀ r b, validate (.map kvs) = .ok (r, b) → invalidKindMsg v ∈ r.errors) ∧
    (VALID_KINDS.any (pyEqStr v) = true → kindRuleErrors (.map kvs) = .ok []) ∧
    (truthy v = false → kindRuleErrors (.map kvs) = .ok []) := by
  have hg : (kvs.lookup "kind").getD .null = v := by rw [hv]; rfl
  refine ⟨fun ht hout => ?_, fun hin => ?_, fun ht => ?_⟩
  · have hk : kindRuleErrors (.map kvs) = .ok [invalidKindMsg v] := by
      rw [kindRule_map, hg, ht, hout]
      rfl
    refine ⟨hk, fun r b h => ?_⟩
    obtain ⟨e1, e2, e3, w, e4, h1, h2, h3, h4, hr, _, _, _⟩ := validate_parts h
    rw [h2] at hk
    simp only [Except.ok.injEq] at hk
    subst hk
    rw [hr]
    simp
  · rw [kindRule_map, hg, hin]
    simp
  · rw [kindRule_map, hg, ht]
    simp

/-- Witness for C4 (amended): `kind: Foo`. -/
theorem kind_enum_errors_witness :
    kindRuleErrors (.map [("kind", Yaml.str "Foo")]) = .ok [invalidKindMsg (Yaml.str "Foo")] :=
  ((kind_enum_errors [("kind", Yaml.str "Foo")] (Yaml.str "Foo") rfl).1 rfl rfl).1


/-- C5 counterexample: `model` present with a null value: the falsy
guard emits the warning and skips the `model.id` check, so no error is
produced although `model` is present without `model.id`. -/
theorem null_model_counterexample :
    ([("kind", Yaml.str "Agent"), ("name", Yaml.str "x"), ("model", Yaml.null)].lookup "model"
        = some Yaml.null) ∧
    validate (.map [("kind", .str "Agent"), ("name", .str "x"), ("model", .null)]) =
      .ok ({ errors := [], warnings := [noModelWarning], expressions := [] }, true) :=
  ⟨rfl, rfl⟩

/-- C5 (amended): if `model` is absent or falsy, exactly the no-model
warning is emitted and the model rule contributes no errors; if `model`
is present as a non-empty mapping without `id`, the missing-`model.id`
error is produced. -/
theorem model_section_check (kvs : List (String × Yaml)) :
    (truthy ((kvs.lookup "model").getD .null) = false →
       modelRule (.map kvs) = .ok ([], [noModelWarning]) ∧
       ∀ r b, validate (.map kvs) = .ok (r, b) → r.warnings = [noModelWarning]) ∧
    (∀ mkvs, kvs.lookup "model" = some (.map mkvs) → mkvs.isEmpty = false →
       mkvs.any (fun kv => kv.1 == "id") = false →
       ∀ r b, validate (.map kvs) = .ok (r, b) → missingModelIdMsg ∈ r.errors) := by
  constructor
  · intro ht
    have h1 : modelRule (.map kvs) = .ok ([], [noModelWarning]) := by
      unfold modelRule
      rw [show pyGet (.map kvs) "model" .null =
            .ok ((kvs.lookup "model").getD .null) from rfl, ok_bind,
          if_pos (by simp [ht])]
      rfl
    refine ⟨h1, fun r b h => ?_⟩
    obtain ⟨e1, e2, e3, w, e4, _, _, h3, _, _, hw, _, _⟩ := validate_parts h
    rw [h1] at h3
    simp only [Except.ok.injEq, Prod.mk.injEq] at h3
    rw [hw, h3.2]
  · intro mkvs hm hne hid r b h
    obtain ⟨e1, e2, e3, w, e4, _, _, h3, _, hr, _, _, _⟩ := validate_parts h
    have := modelRule_truthy_model_id hm hne hid h3
    rw [hr]
    simp [this]

/-- Witness for C5 (amended): a non-empty `model` mapping without `id`. -/
theorem model_section_check_witness :
    missingModelIdMsg ∈
      ({ errors := [missingModelIdMsg], warnings := [], expressions := [] } : Report).errors :=
  (model_section_check
      [("kind", .str "Agent"), ("name", .str "x"), ("model", .map [("foo", .int 1)])]).2
    [("foo", .int 1)] rfl rfl rfl
    { errors := [missingModelIdMsg], warnings := [], expressions := [] } false rfl

/-- C6: with `model.connection.kind = "key"`, a connection mapping with
neither `apiKey` nor `key` puts exactly one copy of the
missing-credential error in the final error list; with either field
present that error does not occur at all. -/
theorem key_connection_credential (kvs mkvs ckvs : List (String × Yaml))
    (hm : kvs.lookup "model" = some (.map mkvs))
    (hc : mkvs.lookup "connection" = some (.map ckvs))
    (hk : ckvs.lookup "kind" = some (.str "key")) :
    (ckvs.any (fun kv => kv.1 == "apiKey") = false →
     ckvs.any (fun kv => kv.1 == "key") = false →
     ∀ r b, validate (.map kvs) = .ok (r, b) → r.errors.count keyConnMsg = 1) ∧
    ((ckvs.any (fun kv => kv.1 == "apiKey") = true ∨ ckvs.any (fun kv => kv.1 == "key") = true) →
     ∀ r b, validate (.map kvs) = .ok (r, b) → r.errors.count keyConnMsg = 0) := by
  constructor
  · intro hA hK r b h
    obtain ⟨e1, e2, e3, w, e4, h1, h2, h3, h4, hr, _, _, _⟩ := validate_parts h
    rw [modelRule_key_conn hm hc hk, hA, hK] at h3
    simp only [Bool.false_eq_true, if_false, Except.ok.injEq, Prod.mk.injEq] at h3
    obtain ⟨he3, -⟩ := h3
    rw [hr, List.count_append, List.count_append, List.count_append,
        requiredFields_count_keyConn h1, kindRule_count_keyConn h2,
        toolsRule_count_keyConn h4, ← he3]
    by_cases hid : mkvs.any (fun kv => kv.1 == "id") <;> simp [hid] <;> decide
  · intro hE r b h
    obtain ⟨e1, e2, e3, w, e4, h1, h2, h3, h4, hr, _, _, _⟩ := validate_parts h
    rw [modelRule_key_conn hm hc hk] at h3
    have he3 : e3.count keyConnMsg = 0 := by
      rcases hE with hE | hE
      · rw [hE] at h3
        simp only [if_true, Except.ok.injEq, Prod.mk.injEq] at h3
        obtain ⟨he3, -⟩ := h3
        rw [← he3]
        by_cases hid : mkvs.any (fun kv => kv.1 == "id") <;> simp [hid] <;> decide
      · rw [hE] at h3
        simp only [if_true, Except.ok.injEq, Prod.mk.injEq] at h3
        obtain ⟨he3, -⟩ := h3
        rw [← he3]
        by_cases hid : mkvs.any (fun kv => kv.1 == "id") <;>
          by_cases hA : ckvs.any (fun kv => kv.1 == "apiKey") <;>
            simp [hid, hA] <;> decide
    rw [hr, List.count_append, List.count_append, List.count_append,
        requiredFields_count_keyConn h1, kindRule_count_keyConn h2,
        toolsRule_count_keyConn h4, he3]

/-- Witness for C6: a concrete key-connection document without
credentials. -/
theorem key_connection_credential_witness :
    ({ errors := [keyConnMsg], warnings := [], expressions := [] } : Report).errors.count
      keyConnMsg = 1 :=
  (key_connection_credential
      [("kind", .str "Agent"), ("name", .str "x"),
       ("model", .map [("id", .str "gpt"), ("connection", .map [("kind", .str "key")])])]
      [("id", .str "gpt"), ("connection", .map [("kind", .str "key")])]
      [("kind", .str "key")] rfl rfl rfl).1 rfl rfl
    { errors := [keyConnMsg], warnings := [], expressions := [] } false rfl

/-- C7: a tool entry without a `kind` key yields exactly the one
missing-`kind` error for that entry — no enumeration or kind-specific
checks run for it — and the loop continues with the following entries. -/
theorem tool_missing_kind_single_error (i : Nat) (tkvs : List (String × Yaml))
    (h : tkvs.lookup "kind" = none) :
    toolEntryErrors i (.map tkvs) = .ok [toolMsg i "Missing 'kind' field"] ∧
    ∀ rest es, toolsErrorsFrom (i + 1) rest = .ok es →
      toolsErrorsFrom i (.map tkvs :: rest) = .ok (toolMsg i "Missing 'kind' field" :: es) := by
  have h1 : toolEntryErrors i (.map tkvs) = .ok [toolMsg i "Missing 'kind' field"] := by
    unfold toolEntryErrors
    rw [show pyGet (.map tkvs) "kind" .null = .ok ((tkvs.lookup "kind").getD .null) from rfl,
        ok_bind, h]
    rfl
  refine ⟨h1, fun rest es hrest => ?_⟩
  unfold toolsErrorsFrom
  rw [h1, ok_bind, hrest, ok_bind]
  rfl

/-- Witness for C7 at the first entry of a tools list. -/
theorem tool_missing_kind_single_error_witness :
    toolEntryErrors 0 (.map [("name", Yaml.str "t")]) = .ok [toolMsg 0 "Missing 'kind' field"] :=
  (tool_missing_kind_single_error 0 [("name", Yaml.str "t")] rfl).1

/-- C10: a tool entry whose `kind` is present but falsy (empty string,
null, false or 0) is reported with the missing-`kind` message and
skipped, not flagged as an invalid enumeration value. -/
theorem tool_falsy_kind_missing_branch (i : Nat) (tkvs : List (String × Yaml)) (v : Yaml)
    (hv : tkvs.lookup "kind" = some v) (hf : truthy v = false) :
    toolEntryErrors i (.map tkvs) = .ok [toolMsg i "Missing 'kind' field"] := by
  unfold toolEntryErrors
  rw [show pyGet (.map tkvs) "kind" .null = .ok ((tkvs.lookup "kind").getD .null) from rfl,
      ok_bind, hv]
  rw [show (some v).getD Yaml.null = v from rfl, if_pos (by simp [hf])]
  rfl

/-- Witness for C10 at `kind: ""` (and position 3). -/
theorem tool_falsy_kind_missing_branch_witness :
    toolEntryErrors 3 (.map [("kind", Yaml.str "")]) = .ok [toolMsg 3 "Missing 'kind' field"] :=
  tool_falsy_kind_missing_branch 3 [("kind", Yaml.str "")] (Yaml.str "") rfl rfl


/-- C8 (amended): the two concrete examples behave as stated, and the
general extraction rule holds whenever `=Env.` does not occur again in
the remainder: the extracted name is the substring after `=Env.` up to
the first `)` or `,`, whichever comes first (the full remainder when
neither occurs).  When `=Env.` occurs again, the code stops at the next
occurrence first (see the counterexample). -/
theorem env_extraction_characterized :
    (powerfxExpressions (.map [("a", .map [("b", .str "=Env.FOO,bar)")])]) =
        [("a.b", "=Env.FOO,bar)")] ∧
      extractEnvVar "=Env.FOO,bar)" = "FOO") ∧
    (powerfxExpressions (.map [("a", .str "=Env.FOO")]) = [("a", "=Env.FOO")] ∧
      extractEnvVar "=Env.FOO" = "FOO") ∧
    (∀ rest : List Char, pySplit "=Env." (String.mk rest) = [String.mk rest] →
      extractEnvVar (String.mk ("=Env.".data ++ rest)) =
        String.mk (rest.takeWhile (fun ch => !(ch == ')') && !(ch == ',')))) := by
  refine ⟨⟨rfl, rfl⟩, ⟨rfl, rfl⟩, fun rest hone => ?_⟩
  have hone' : pySplitGo ['=', 'E', 'n', 'v', '.'] rest.length rest = [rest] := by
    have hs : pySplit "=Env." (String.mk rest) =
        (pySplitGo ['=', 'E', 'n', 'v', '.'] rest.length rest).map String.mk := rfl
    rw [hs] at hone
    cases hsp : pySplitGo ['=', 'E', 'n', 'v', '.'] rest.length rest with
    | nil => exact absurd hsp (pySplitGo_ne_nil _ _ _)
    | cons seg segs =>
      rw [hsp] at hone
      simp only [List.map_cons, List.cons.injEq, List.map_eq_nil_iff] at hone
      obtain ⟨hseg, hsegs⟩ := hone
      have : seg = rest := by
        have := congrArg String.data hseg
        exact this
      rw [this, hsegs]
  have hlen : ("=Env.".data ++ rest).length = (rest.length + 4) + 1 := by
    have h5 : ("=Env.".data).length = 5 := rfl
    rw [List.length_append, h5]
    omega
  have h1 : pySplit "=Env." (String.mk ("=Env.".data ++ rest)) =
      ([] :: pySplitGo ['=', 'E', 'n', 'v', '.'] (rest.length + 4) rest).map String.mk := by
    have hstep : pySplit "=Env." (String.mk ("=Env.".data ++ rest)) =
        (pySplitGo ['=', 'E', 'n', 'v', '.'] ("=Env.".data ++ rest).length
          ("=Env.".data ++ rest)).map String.mk := rfl
    rw [hstep, hlen]
    exact congrArg (List.map String.mk)
      (pySplitGo_prefix_step '=' ['E', 'n', 'v', '.'] rest (rest.length + 4))
  have h2 : pySplitGo ['=', 'E', 'n', 'v', '.'] (rest.length + 4) rest = [rest] := by
    rw [pySplitGo_fuel_irrel (by simp) (rest.length + 4) rest.length rest (by omega) (le_refl _)]
    exact hone'
  have h3 : (pySplit "=Env." (String.mk ("=Env.".data ++ rest))).getD 1 "" = String.mk rest := by
    rw [h1, h2]
    rfl
  unfold extractEnvVar
  rw [h3]
  rw [show (")" : String) = String.singleton ')' from rfl,
      show ("," : String) = String.singleton ',' from rfl]
  rw [pySplit_single_head ')' rest]
  rw [pySplit_single_head ',' (rest.takeWhile (fun a => !(a == ')')))]
  exact congrArg String.mk
    (takeWhile_takeWhile_bool (fun a => !(a == ',')) (fun a => !(a == ')')) rest)

/-- C8 counterexample: on an expression in which `=Env.` occurs twice,
the code extracts only up to the second occurrence (`"A"`), while the
spec's "substring after `=Env.` up to the first `)` or `,`" is the full
remainder `"A=Env.B"`. -/
theorem env_extraction_counterexample :
    extractEnvVar "=Env.A=Env.B" = "A" ∧ specEnvVarName "=Env.A=Env.B" = "A=Env.B" ∧
      ("A" : String) ≠ "A=Env.B" := ⟨rfl, rfl, by decide⟩

/-- Witness for C8 (amended): the general rule applied at the remainder
of the first concrete example. -/
theorem env_extraction_characterized_witness :
    extractEnvVar (String.mk ("=Env.".data ++ "FOO,bar)".data)) =
      String.mk ("FOO,bar)".data.takeWhile (fun ch => !(ch == ')') && !(ch == ','))) :=
  env_extraction_characterized.2.2 "FOO,bar)".data rfl
